import Mathlib

/-!
Verification of the Daimon collector/endpoint core.

Shallow embedding of:
  * `src/collectors/claude_watcher.py` — intent detection, file-path
    extraction, the JSONL session tracker (`SessionTracker._process_file`,
    `_process_entry`, `_send_event`);
  * `src/endpoints/quick_check.py` and `src/endpoints/constants.py` —
    the risk / salience heuristic (`analyze_prompt`).

Python text is modelled as `List Char` (one code point per `Char`);
`str.lower` is modelled for the ASCII range (every keyword in the fixed
tables is ASCII), machine integers are `Nat`, floats whose only role is
comparison against the literals 0.1 / 0.5 / 0.6 / 0.85 / 0.9 are
modelled as `ℚ` (all comparisons the code performs have the same truth
value over ℚ as over IEEE doubles for these literals).
-/

/-! ### Python string primitives -/

/-- Newline character (`\n`, code point 10). -/
def nlChar : Char := Char.ofNat 10

/-- The characters Python's `str.strip()` removes (ASCII whitespace:
space, tab, newline, carriage return, vertical tab, form feed). -/
def isPySpace (c : Char) : Bool :=
  c = ' ' || c = Char.ofNat 9 || c = Char.ofNat 10 || c = Char.ofNat 13 ||
    c = Char.ofNat 11 || c = Char.ofNat 12

/-- Python's `needle in haystack` substring test (`containsL haystack needle`). -/
def containsL : List Char → List Char → Bool
  | s, t =>
    t.isPrefixOf s ||
      match s with
      | [] => false
      | _ :: s' => containsL s' t

/-- Python's `str.lower()` restricted to ASCII (`Char.toLower` maps
`A`–`Z` to `a`–`z` and leaves everything else unchanged). -/
def pyLowerL (l : List Char) : List Char := l.map Char.toLower

/-- Python's `str.strip()`: drop leading and trailing whitespace. -/
def pyStrip (l : List Char) : List Char :=
  ((l.dropWhile isPySpace).reverse.dropWhile isPySpace).reverse

/-- Python's `file.readlines()` split: each returned line keeps its
trailing newline; a final segment without a newline is still returned. -/
def splitLinesPy : List Char → List (List Char)
  | [] => []
  | c :: cs =>
    if c = nlChar then [nlChar] :: splitLinesPy cs
    else
      match splitLinesPy cs with
      | [] => [[c]]
      | l :: ls => (c :: l) :: ls

/-! ### The two file-path regexes of `extract_files_touched`

Pattern 1 (source line 85): quoted paths with extension.
Pattern 2 (source line 86): unquoted whitespace-delimited paths with
extension, ended by a word boundary.

The matchers below implement exactly these two concrete patterns with
Python `re` semantics: leftmost match, greedy quantifiers with
backtracking, `findall` returning the capture group of each
non-overlapping match and resuming after the matched text. -/

/-- The regex quote class: apostrophe (39), double quote (34), backtick (96). -/
def isQuoteCh (c : Char) : Bool :=
  c = Char.ofNat 39 || c = Char.ofNat 34 || c = Char.ofNat 96

/-- The regex class `[a-zA-Z]` (ASCII letters only, as in the pattern). -/
def isAsciiAlpha (c : Char) : Bool :=
  ('a' ≤ c && c ≤ 'z') || ('A' ≤ c && c ≤ 'Z')

/-- The regex class `\w` over ASCII, used for the `\b` word boundary. -/
def isWordCh (c : Char) : Bool :=
  isAsciiAlpha c || ('0' ≤ c && c ≤ '9') || c = '_'

/-- `allAlpha s j m`: the `m` characters starting at index `j` all exist
and are ASCII letters. -/
def allAlpha (s : List Char) (j m : Nat) : Bool :=
  (List.range m).all fun t =>
    match s.get? (j + t) with
    | some c => isAsciiAlpha c
    | none => false

/-- `s.drop a |>.take (b - a)`: the characters of indices `[a, b)`. -/
def sliceCL (s : List Char) (a b : Nat) : List Char :=
  (s.drop a).take (b - a)

/-- Try the alternatives in order, returning the first success
(the backtracking order of a greedy bounded repetition). -/
def firstSomeList {α : Type} : List Nat → (Nat → Option α) → Option α
  | [], _ => none
  | x :: xs, f =>
    match f x with
    | some r => some r
    | none => firstSomeList xs f

/-- Greedy Kleene star over the character class `cls` starting at index
`i`, with continuation `cont`: prefer consuming one more character, and
on failure of the whole remainder backtrack to trying `cont` here.
`fuel` only bounds recursion (callers pass at least `s.length`). -/
def starGreedy (s : List Char) (cls : Char → Bool)
    (cont : Nat → Option (List Char × Nat)) : Nat → Nat → Option (List Char × Nat)
  | 0, i => cont i
  | fuel + 1, i =>
    match s.get? i with
    | some c =>
      if cls c then
        match starGreedy s cls cont fuel (i + 1) with
        | some r => some r
        | none => cont i
      else cont i
    | none => cont i

/-- Pattern 1, after the greedy `[^'"`]+` stopped at `j` and a literal
`.` was seen at `j`: greedy `[a-zA-Z]{2,4}` then a closing quote.
Returns the capture group (indices `[i+1, j+1+m)`) and the resume index. -/
def pat1Letters (s : List Char) (i j : Nat) : Option (List Char × Nat) :=
  firstSomeList [4, 3, 2] fun m =>
    if allAlpha s (j + 1) m then
      match s.get? (j + 1 + m) with
      | some qc => if isQuoteCh qc then some (sliceCL s (i + 1) (j + 1 + m), j + 2 + m) else none
      | none => none
    else none

/-- Pattern 1 continuation: require the literal `.` at `j`. -/
def pat1Cont (s : List Char) (i j : Nat) : Option (List Char × Nat) :=
  match s.get? j with
  | some d => if d = '.' then pat1Letters s i j else none
  | none => none

/-- Anchored match of pattern 1 at index `i`:
an opening quote, a nonempty greedy run of non-quote characters, `.`,
2–4 letters, a closing quote. -/
def matchPat1At (s : List Char) (i : Nat) : Option (List Char × Nat) :=
  match s.get? i, s.get? (i + 1) with
  | some q, some c0 =>
    if isQuoteCh q && !isQuoteCh c0 then
      starGreedy s (fun c => !isQuoteCh c) (pat1Cont s i) s.length (i + 2)
    else none
  | _, _ => none

/-- Pattern 2, after the greedy `\S+` stopped at `j` and a literal `.`
was seen at `j`: greedy `[a-zA-Z]{2,4}` then the word boundary `\b`
(end of input or a non-word character). Capture is indices `[i, j+1+m)`. -/
def pat2Letters (s : List Char) (i j : Nat) : Option (List Char × Nat) :=
  firstSomeList [4, 3, 2] fun m =>
    if allAlpha s (j + 1) m then
      match s.get? (j + 1 + m) with
      | some c => if isWordCh c then none else some (sliceCL s i (j + 1 + m), j + 1 + m)
      | none => some (sliceCL s i (j + 1 + m), j + 1 + m)
    else none

/-- Pattern 2 continuation: require the literal `.` at `j`. -/
def pat2Cont (s : List Char) (i j : Nat) : Option (List Char × Nat) :=
  match s.get? j with
  | some d => if d = '.' then pat2Letters s i j else none
  | none => none

/-- Anchored match of pattern 2 at index `i`: a nonempty greedy run of
non-whitespace characters, `.`, 2–4 letters, word boundary. -/
def matchPat2At (s : List Char) (i : Nat) : Option (List Char × Nat) :=
  match s.get? i with
  | some c0 =>
    if !isPySpace c0 then
      starGreedy s (fun c => !isPySpace c) (pat2Cont s i) s.length (i + 1)
    else none
  | none => none

/-- `re.findall` driver: scan indices left to right, emit the capture of
each match and resume after it, otherwise advance one position. -/
def findallAux (s : List Char) (matchAt : Nat → Option (List Char × Nat)) :
    Nat → Nat → List (List Char)
  | 0, _ => []
  | fuel + 1, i =>
    if s.length < i then []
    else
      match matchAt i with
      | some (cap, next) => cap :: findallAux s matchAt fuel next
      | none => findallAux s matchAt fuel (i + 1)

/-- All matches of pattern 1 over `s`. -/
def findallPat1 (s : List Char) : List (List Char) :=
  findallAux s (matchPat1At s) (s.length + 1) 0

/-- All matches of pattern 2 over `s`. -/
def findallPat2 (s : List Char) : List (List Char) :=
  findallAux s (matchPat2At s) (s.length + 1) 0

/-- `extract_files_touched` (source lines 71–95): run both patterns,
concatenate the match lists, keep entries containing `/` or `.`,
deduplicate (`list(set(...))`; CPython's set iteration order is
unspecified, the model fixes one order, which is sound because the
specified behaviour is order-free), and cap at 10 entries. -/
def extract_files_touched (message : String) : List String :=
  let ml := message.toList
  let files := (findallPat1 ml ++ findallPat2 ml).map String.mk
  ((files.filter fun f => f.toList.contains '/' || f.toList.contains '.').dedup).take 10

/-! ### Intent detection (`detect_intention`, source lines 40–68) -/

/-- `INTENT_PATTERNS` (source lines 40–48), in insertion order — CPython
dicts iterate in insertion order, so the table order below is the
iteration order of the source's loop. -/
def INTENT_PATTERNS : List (String × List String) :=
  [ ("create", ["create", "add", "implement", "build", "make", "generate", "write"]),
    ("fix", ["fix", "bug", "error", "broken", "issue", "problem", "crash"]),
    ("refactor", ["refactor", "clean", "reorganize", "restructure", "improve"]),
    ("understand", ["explain", "what", "how", "why", "understand", "help me"]),
    ("delete", ["delete", "remove", "drop", "destroy", "clean up"]),
    ("test", ["test", "verify", "check", "validate", "coverage"]),
    ("deploy", ["deploy", "release", "production", "publish", "ship"]) ]

/-- The nested loop of `detect_intention`: the inner `for keyword ...:
if keyword in message_lower: return intent` returns `intent` exactly
when some keyword of the entry matches, i.e. `keywords.any`. -/
def detect_go (ml : List Char) : List (String × List String) → String
  | [] => "unknown"
  | (intent, keywords) :: rest =>
    if keywords.any (fun k => containsL ml k.toList) then intent else detect_go ml rest

/-- `detect_intention` (source lines 51–68): lower-case the message and
walk `INTENT_PATTERNS` for the first substring match; fall back to
`"unknown"`. -/
def detect_intention (message : String) : String :=
  detect_go (pyLowerL message.toList) INTENT_PATTERNS

/-- The spec's wording of the same function (spec §4.1): the tag of the
first table entry having a matching keyword, `"unknown"` otherwise.
Stated with `List.find?`; compared against `detect_intention` in C7. -/
def detect_intention_spec (message : String) : String :=
  match INTENT_PATTERNS.find?
      (fun e => e.2.any fun k => containsL (pyLowerL message.toList) k.toList) with
  | some e => e.1
  | none => "unknown"

/-! ### Risk analysis (`analyze_prompt`, `src/endpoints/quick_check.py`) -/

/-- `HIGH_RISK_KEYWORDS` (`src/endpoints/constants.py` lines 15–27). -/
def HIGH_RISK_KEYWORDS : List String :=
  ["delete", "drop", "rm -rf", "truncate", "production", "destroy",
   "wipe", "purge", "credential", "secret", "password"]

/-- `MEDIUM_RISK_KEYWORDS` (`src/endpoints/constants.py` lines 30–41). -/
def MEDIUM_RISK_KEYWORDS : List String :=
  ["refactor", "migrate", "architecture", "auth", "security", "payment",
   "deploy", "database", "schema", "api"]

/-- `QuickCheckResponse` (`quick_check.py` lines 27–34). Salience as ℚ. -/
structure QuickCheckResponse where
  salience : ℚ
  should_emerge : Bool
  mode : String
  emergence_reason : Option String
  detected_keywords : List String
deriving DecidableEq, Repr

/-- One iteration of a risk-keyword loop (`quick_check.py` lines 54–57
with `v = 0.9`, lines 61–64 with `v = 0.6`): on a substring match,
`salience = max(salience, v)` and `detected.append(keyword)`. -/
def riskStep (pl : List Char) (v : ℚ) (acc : ℚ × List String) (kw : String) : ℚ × List String :=
  if containsL pl kw.toList then (max acc.1 v, acc.2 ++ [kw]) else acc

/-- `analyze_prompt` (`quick_check.py` lines 37–88): base salience 0.1,
high-risk scan at 0.9, medium-risk scan at 0.6 only when no high-risk
keyword matched (`salience < 0.9`), mode thresholds 0.85 and 0.5, and
the reason string built from the first 3 detected keywords. -/
def analyze_prompt (prompt : String) : QuickCheckResponse :=
  let pl := pyLowerL prompt.toList
  let hi := HIGH_RISK_KEYWORDS.foldl (riskStep pl (9/10)) (1/10, [])
  let sd := if hi.1 < 9/10 then MEDIUM_RISK_KEYWORDS.foldl (riskStep pl (6/10)) hi else hi
  let me : String × Bool :=
    if sd.1 ≥ 85/100 then ("emerge", true)
    else if sd.1 ≥ 5/10 then ("subtle", false)
    else ("silent", false)
  let reason : Option String :=
    if sd.2.isEmpty then none
    else some (("Detected: ") ++ String.intercalate (", ") (sd.2.take 3))
  { salience := sd.1, should_emerge := me.2, mode := me.1,
    emergence_reason := reason, detected_keywords := sd.2 }

/-! ### SessionTracker (`claude_watcher.py` lines 98–226)

The JSON decoding performed by the external library call
`json.loads(line)` is modelled as an oracle parameter
`loads : String → Option Entry`: `none` is a `json.JSONDecodeError`
(the only decode failure the source catches), `some e` a decoded object
whose consumed fields are `entry.get("role", "")` and
`entry.get("content", "")`.  The file-system snapshot seen by one pass
(`stat().st_size`, `seek`, `readlines`, `tell`) is modelled by the
file's byte content `content : List Char`; the `except (IOError,
OSError)` branch of `_process_file` (lines 166–167) leaves the tracker
state unchanged and is not involved in any claim below. -/

/-- The two fields of a decoded JSONL entry the tracker consumes. -/
structure Entry where
  role : String
  content : String
deriving DecidableEq, Repr

/-- The outbound event built at `claude_watcher.py` lines 194–200 — by
construction it has exactly these five fields. -/
structure Event where
  event_type : String
  timestamp : String
  project : String
  files_touched : List String
  intention : String
deriving DecidableEq, Repr

/-- `SessionTracker._process_entry` (lines 169–206) without the
dispatch side effect: skip non-user roles and empty content, otherwise
build the event from `detect_intention` / `extract_files_touched`. -/
def process_entry (entry : Entry) (project ts : String) : Option Event :=
  if entry.role ≠ "user" then none
  else if entry.content = "" then none
  else
    let intention := detect_intention entry.content
    let files_touched := extract_files_touched entry.content
    some { event_type := intention, timestamp := ts, project := project,
           files_touched := files_touched, intention := intention }

/-- The event `_process_entry` builds (lines 194–200) for a user record
whose content field is `c`. -/
def mkUserEvent (c project ts : String) : Event :=
  { event_type := detect_intention c, timestamp := ts, project := project,
    files_touched := extract_files_touched c, intention := detect_intention c }

/-- A concrete decoder standing in for `json.loads` in concrete runs:
four fixed well-formed user records; everything else fails to decode. -/
def demoLoads : String → Option Entry := fun s =>
  if s = "A1" then some { role := "user", content := "make it" }
  else if s = "A2" then some { role := "user", content := "fix the bug" }
  else if s = "A3" then some { role := "user", content := "test it" }
  else if s = "A5" then some { role := "user", content := "ship it now" }
  else none

/-- The body of the per-line loop of `_process_file` (lines 155–164):
strip, skip blank lines, decode (skipping `json.JSONDecodeError`), and
process the entry, accumulating the produced events. -/
def process_line (loads : String → Option Entry) (project ts : String)
    (acc : List Event) (line : List Char) : List Event :=
  let l := pyStrip line
  if l = [] then acc
  else
    match loads (String.mk l) with
    | some entry =>
      match process_entry entry project ts with
      | some ev => acc ++ [ev]
      | none => acc
    | none => acc

/-- `SessionTracker._process_file` (lines 134–167) for one file, one
pass: if `file_size <= current_pos` return unchanged; otherwise read
the unseen bytes, set the checkpoint to `f.tell()` (the file size), and
run the line loop. Returns the new checkpoint and the produced events. -/
def process_file (loads : String → Option Entry) (pos : Nat) (content : List Char)
    (project ts : String) : Nat × List Event :=
  let file_size := content.length
  if file_size ≤ pos then (pos, [])
  else
    let new_lines := splitLinesPy (content.drop pos)
    (file_size, new_lines.foldl (process_line loads project ts) [])

/-- The observable steps of one `_process_file` pass, in program order. -/
inductive ScanAction where
  | read (start stop : Nat) : ScanAction
  | commit (off : Nat) : ScanAction
  | classify (ev : Event) : ScanAction
deriving DecidableEq, Repr

/-- `_process_file` as an ordered trace: the read of the unseen byte
range (`seek`/`readlines`, lines 151–152), then the single checkpoint
commit (`self.positions[file_path] = f.tell()`, line 153), then the
per-record classification loop (lines 155–164). -/
def process_file_trace (loads : String → Option Entry) (pos : Nat) (content : List Char)
    (project ts : String) : List ScanAction :=
  let file_size := content.length
  if file_size ≤ pos then []
  else
    ScanAction.read pos file_size :: ScanAction.commit file_size ::
      ((splitLinesPy (content.drop pos)).foldl (process_line loads project ts) []).map
        ScanAction.classify

/-- The checkpoint values committed in a trace. -/
def commits_in (tr : List ScanAction) : List Nat :=
  tr.filterMap fun a =>
    match a with
    | ScanAction.commit o => some o
    | _ => none

/-- The byte ranges read in a trace. -/
def reads_in (tr : List ScanAction) : List (Nat × Nat) :=
  tr.filterMap fun a =>
    match a with
    | ScanAction.read s e => some (s, e)
    | _ => none

/-- The checkpoint after replaying a (possibly crash-truncated) prefix
of a trace, starting from `pos`. -/
def checkpoint_after (pos : Nat) (tr : List ScanAction) : Nat :=
  tr.foldl
    (fun p a =>
      match a with
      | ScanAction.commit o => o
      | _ => p)
    pos

/-- The successive checkpoint values of a sequence of scan passes over
one file, each pass seeing the file content of that moment. -/
def checkpoints (loads : String → Option Entry) (project ts : String) :
    Nat → List (List Char) → List Nat
  | _, [] => []
  | pos, c :: cs =>
    (process_file loads pos c project ts).1 ::
      checkpoints loads project ts (process_file loads pos c project ts).1 cs

/-- The byte ranges read across a sequence of scan passes over one file. -/
def pass_reads (loads : String → Option Entry) (project ts : String) :
    Nat → List (List Char) → List (Nat × Nat)
  | _, [] => []
  | pos, c :: cs =>
    reads_in (process_file_trace loads pos c project ts) ++
      pass_reads loads project ts (process_file loads pos c project ts).1 cs

/-- `IsRangeChain a rs b`: the ranges `rs` tile `[a, b)` exactly —
each range starts where the previous one ended, is nonempty, the first
starts at `a` and the last ends at `b` (so they are non-overlapping,
gap-free, in order, and cover exactly `[a, b)`). -/
def IsRangeChain : Nat → List (Nat × Nat) → Nat → Prop
  | a, [], b => a = b
  | a, r :: rest, b => r.1 = a ∧ a < r.2 ∧ IsRangeChain r.2 rest b

/-! ### EventDispatcher (`_send_event`, lines 208–226)

The external transport (`import httpx`; `client.post(...)`) is modelled
as the outcome of the `try` body: `Except.ok ()` for a completed post,
`Except.error e` for a raised exception. -/

/-- The exceptions the `try` body of `_send_event` can raise:
`ImportError` (line 223) and the `httpx` failures subsumed by the
`except Exception` handler (line 225). -/
inductive PyExc where
  | importError : PyExc
  | timeoutExc : PyExc
  | connectError : PyExc
  | statusError : PyExc
  | otherError (msg : String) : PyExc
deriving DecidableEq, Repr

/-- `SessionTracker._send_event` (lines 208–226): run the body;
`except ImportError` logs and swallows, `except Exception` logs and
swallows. The result is the exception state at the function boundary. -/
def send_event (body : Except PyExc Unit) : Except PyExc Unit :=
  match body with
  | Except.ok u => Except.ok u
  | Except.error PyExc.importError => Except.ok ()
  | Except.error _ => Except.ok ()

/-- `_process_entry` with its dispatch call (line 206), in an exception
monad: an uncaught exception from `_send_event` would abort processing. -/
def process_entry_d (dispatchBody : Event → Except PyExc Unit) (entry : Entry)
    (project ts : String) : Except PyExc (Option Event) :=
  match process_entry entry project ts with
  | none => Except.ok none
  | some ev => (send_event (dispatchBody ev)).bind fun _ => Except.ok (some ev)

/-- The per-line loop body with dispatch, in the exception monad. -/
def process_line_d (loads : String → Option Entry) (dispatchBody : Event → Except PyExc Unit)
    (project ts : String) (acc : List Event) (line : List Char) : Except PyExc (List Event) :=
  let l := pyStrip line
  if l = [] then Except.ok acc
  else
    match loads (String.mk l) with
    | some entry =>
      (process_entry_d dispatchBody entry project ts).bind fun oe =>
        Except.ok
          (match oe with
           | some ev => acc ++ [ev]
           | none => acc)
    | none => Except.ok acc

/-- `_process_file` with dispatch, in the exception monad: an uncaught
dispatch exception would interrupt the scan of the remaining lines. -/
def process_file_d (loads : String → Option Entry) (dispatchBody : Event → Except PyExc Unit)
    (pos : Nat) (content : List Char) (project ts : String) :
    Except PyExc (Nat × List Event) :=
  if content.length ≤ pos then Except.ok (pos, [])
  else
    ((splitLinesPy (content.drop pos)).foldlM (process_line_d loads dispatchBody project ts)
        []).bind
      fun evs => Except.ok (content.length, evs)


/-- The matching high-risk keywords of a prompt, in scan order. -/
def highMatches (prompt : String) : List String :=
  HIGH_RISK_KEYWORDS.filter fun kw => containsL (pyLowerL prompt.toList) kw.toList

/-- The matching medium-risk keywords of a prompt, in scan order. -/
def medMatches (prompt : String) : List String :=
  MEDIUM_RISK_KEYWORDS.filter fun kw => containsL (pyLowerL prompt.toList) kw.toList

/-! ### Helper lemmas -/

theorem riskFold_snd (pl : List Char) (v : ℚ) :
    ∀ (kws : List String) (acc : ℚ × List String),
      (kws.foldl (riskStep pl v) acc).2 =
        acc.2 ++ kws.filter fun kw => containsL pl kw.toList := by
  intro kws
  induction kws with
  | nil => intro acc; simp
  | cons k ks ih =>
    intro acc
    rw [List.foldl_cons, List.filter_cons]
    by_cases h : containsL pl k.toList = true
    · rw [if_pos h, ih]
      show (riskStep pl v acc k).2 ++ _ = _
      rw [riskStep, if_pos h]
      simp
    · rw [if_neg h, ih]
      show (riskStep pl v acc k).2 ++ _ = _
      rw [riskStep, if_neg h]

theorem riskFold_fst (pl : List Char) (v : ℚ) :
    ∀ (kws : List String) (acc : ℚ × List String),
      (kws.foldl (riskStep pl v) acc).1 =
        if kws.any (fun kw => containsL pl kw.toList) then max acc.1 v else acc.1 := by
  intro kws
  induction kws with
  | nil => intro acc; simp
  | cons k ks ih =>
    intro acc
    rw [List.foldl_cons, ih, List.any_cons]
    by_cases h : containsL pl k.toList = true
    · have hor : (containsL pl k.toList || ks.any fun kw => containsL pl kw.toList) = true := by
        rw [h, Bool.true_or]
      rw [if_pos hor]
      show (if _ then (riskStep pl v acc k).1 ⊔ v else (riskStep pl v acc k).1) = _
      rw [riskStep, if_pos h]
      by_cases h2 : (ks.any fun kw => containsL pl kw.toList) = true
      · rw [if_pos h2]
        show (acc.1 ⊔ v) ⊔ v = acc.1 ⊔ v
        rw [max_assoc, max_self]
      · rw [if_neg h2]
    · have hstep : riskStep pl v acc k = acc := by rw [riskStep, if_neg h]
      rw [hstep]
      by_cases h2 : (ks.any fun kw => containsL pl kw.toList) = true
      · have hor : (containsL pl k.toList || ks.any fun kw => containsL pl kw.toList) = true := by
          rw [h2, Bool.or_true]
        rw [if_pos h2, if_pos hor]
      · have hn : containsL pl k.toList = false := Bool.not_eq_true _ ▸ Bool.of_not_eq_true h
        have hn2 : (ks.any fun kw => containsL pl kw.toList) = false :=
          Bool.of_not_eq_true h2
        have hor : (containsL pl k.toList || ks.any fun kw => containsL pl kw.toList) = false := by
          rw [hn, hn2, Bool.or_false]
        rw [if_neg h2, if_neg (by rw [hor]; exact Bool.false_ne_true)]

theorem high_fold_eq (prompt : String) :
    HIGH_RISK_KEYWORDS.foldl (riskStep (pyLowerL prompt.toList) (9/10)) (1/10, []) =
      (if HIGH_RISK_KEYWORDS.any (fun kw => containsL (pyLowerL prompt.toList) kw.toList)
        then (9/10 : ℚ) else 1/10, highMatches prompt) := by
  have h1 := riskFold_fst (pyLowerL prompt.toList) (9/10) HIGH_RISK_KEYWORDS (1/10, [])
  have h2 := riskFold_snd (pyLowerL prompt.toList) (9/10) HIGH_RISK_KEYWORDS (1/10, [])
  rw [Prod.ext_iff]
  refine ⟨?_, ?_⟩
  · rw [h1]
    by_cases h : HIGH_RISK_KEYWORDS.any
        (fun kw => containsL (pyLowerL prompt.toList) kw.toList) = true
    · rw [if_pos h, if_pos h]
      exact max_eq_right (by norm_num)
    · rw [if_neg h, if_neg h]
  · rw [h2]
    simp [highMatches]

theorem med_fold_eq (prompt : String) :
    MEDIUM_RISK_KEYWORDS.foldl (riskStep (pyLowerL prompt.toList) (6/10)) (1/10, []) =
      (if MEDIUM_RISK_KEYWORDS.any (fun kw => containsL (pyLowerL prompt.toList) kw.toList)
        then (6/10 : ℚ) else 1/10, medMatches prompt) := by
  have h1 := riskFold_fst (pyLowerL prompt.toList) (6/10) MEDIUM_RISK_KEYWORDS (1/10, [])
  have h2 := riskFold_snd (pyLowerL prompt.toList) (6/10) MEDIUM_RISK_KEYWORDS (1/10, [])
  rw [Prod.ext_iff]
  refine ⟨?_, ?_⟩
  · rw [h1]
    by_cases h : MEDIUM_RISK_KEYWORDS.any
        (fun kw => containsL (pyLowerL prompt.toList) kw.toList) = true
    · rw [if_pos h, if_pos h]
      exact max_eq_right (by norm_num)
    · rw [if_neg h, if_neg h]
  · rw [h2]
    simp [medMatches]

theorem analyze_prompt_high (prompt : String)
    (h : HIGH_RISK_KEYWORDS.any (fun kw => containsL (pyLowerL prompt.toList) kw.toList) = true) :
    analyze_prompt prompt =
      { salience := 9/10, should_emerge := true, mode := "emerge",
        emergence_reason :=
          some (("Detected: ") ++ String.intercalate (", ") ((highMatches prompt).take 3)),
        detected_keywords := highMatches prompt } := by
  have hne : (highMatches prompt).isEmpty = false := by
    obtain ⟨x, hx, hpx⟩ := List.any_eq_true.mp h
    rw [List.isEmpty_eq_false_iff_exists_mem]
    exact ⟨x, List.mem_filter.mpr ⟨hx, hpx⟩⟩
  rw [analyze_prompt]
  rw [high_fold_eq, if_pos h]
  have hlt : ¬((9/10 : ℚ) < 9/10) := lt_irrefl _
  rw [if_neg hlt, if_pos (by norm_num : (9/10 : ℚ) ≥ 85/100), hne]
  rfl

theorem analyze_prompt_med (prompt : String)
    (hh : HIGH_RISK_KEYWORDS.any (fun kw => containsL (pyLowerL prompt.toList) kw.toList) = false)
    (hm : MEDIUM_RISK_KEYWORDS.any
      (fun kw => containsL (pyLowerL prompt.toList) kw.toList) = true) :
    analyze_prompt prompt =
      { salience := 6/10, should_emerge := false, mode := "subtle",
        emergence_reason :=
          some (("Detected: ") ++ String.intercalate (", ") ((medMatches prompt).take 3)),
        detected_keywords := medMatches prompt } := by
  have hne : (medMatches prompt).isEmpty = false := by
    obtain ⟨x, hx, hpx⟩ := List.any_eq_true.mp hm
    rw [List.isEmpty_eq_false_iff_exists_mem]
    exact ⟨x, List.mem_filter.mpr ⟨hx, hpx⟩⟩
  have hhm : highMatches prompt = [] := by
    rw [highMatches, List.filter_eq_nil_iff]
    intro a ha
    simpa using List.any_eq_false.mp hh a ha
  rw [analyze_prompt, high_fold_eq, hh, hhm]
  simp only [Bool.false_eq_true, if_false]
  rw [if_pos (by norm_num : (1/10 : ℚ) < 9/10), med_fold_eq, hm]
  simp only [if_true]
  rw [if_neg (by norm_num : ¬((6/10 : ℚ) ≥ 85/100)),
    if_pos (by norm_num : (6/10 : ℚ) ≥ 5/10), hne]
  rfl

theorem analyze_prompt_low (prompt : String)
    (hh : HIGH_RISK_KEYWORDS.any (fun kw => containsL (pyLowerL prompt.toList) kw.toList) = false)
    (hm : MEDIUM_RISK_KEYWORDS.any
      (fun kw => containsL (pyLowerL prompt.toList) kw.toList) = false) :
    analyze_prompt prompt =
      { salience := 1/10, should_emerge := false, mode := "silent",
        emergence_reason := none, detected_keywords := [] } := by
  have hhm : highMatches prompt = [] := by
    rw [highMatches, List.filter_eq_nil_iff]
    intro a ha
    simpa using List.any_eq_false.mp hh a ha
  have hmm : medMatches prompt = [] := by
    rw [medMatches, List.filter_eq_nil_iff]
    intro a ha
    simpa using List.any_eq_false.mp hm a ha
  rw [analyze_prompt, high_fold_eq, hh, hhm]
  simp only [Bool.false_eq_true, if_false]
  rw [if_pos (by norm_num : (1/10 : ℚ) < 9/10), med_fold_eq, hm, hmm]
  simp only [Bool.false_eq_true, if_false]
  rw [if_neg (by norm_num : ¬((1/10 : ℚ) ≥ 85/100)),
    if_neg (by norm_num : ¬((1/10 : ℚ) ≥ 5/10))]
  rfl

theorem detect_go_eq_find (ml : List Char) :
    ∀ pats : List (String × List String),
      detect_go ml pats =
        match pats.find? (fun e => e.2.any fun k => containsL ml k.toList) with
        | some e => e.1
        | none => "unknown" := by
  intro pats
  induction pats with
  | nil => rfl
  | cons p rest ih =>
    obtain ⟨intent, kws⟩ := p
    show (if kws.any (fun k => containsL ml k.toList) then intent else detect_go ml rest) = _
    by_cases h : kws.any (fun k => containsL ml k.toList) = true
    · rw [if_pos h]
      simp only [List.find?, h]
    · have hf : (kws.any fun k => containsL ml k.toList) = false := (Bool.not_eq_true _) ▸ h
      rw [if_neg h]
      simp only [List.find?, hf]
      exact ih

theorem splitLinesPy_cons_append (l rest : List Char) (h : nlChar ∉ l) :
    splitLinesPy (l ++ nlChar :: rest) = (l ++ [nlChar]) :: splitLinesPy rest := by
  induction l with
  | nil =>
    show splitLinesPy (nlChar :: rest) = [nlChar] :: splitLinesPy rest
    rw [splitLinesPy, if_pos rfl]
  | cons c l ih =>
    have hc : ¬(c = nlChar) := fun hcc => h (by rw [hcc]; exact List.mem_cons_self _ _)
    have hl : nlChar ∉ l := fun hm => h (List.mem_cons_of_mem _ hm)
    show splitLinesPy (c :: (l ++ nlChar :: rest)) = ((c :: l) ++ [nlChar]) :: splitLinesPy rest
    rw [splitLinesPy, if_neg hc, ih hl]
    rfl

theorem dropWhile_append_single (p : Char → Bool) (l : List Char) (c : Char) :
    List.dropWhile p (l ++ [c]) =
      if List.dropWhile p l = [] then List.dropWhile p [c]
      else List.dropWhile p l ++ [c] := by
  induction l with
  | nil => simp
  | cons a l ih =>
    by_cases h : p a = true
    · rw [List.cons_append, List.dropWhile_cons_of_pos h, List.dropWhile_cons_of_pos h, ih]
    · have hf : p a = false := (Bool.not_eq_true _) ▸ h
      rw [List.cons_append, List.dropWhile_cons_of_neg (by rw [hf]; exact Bool.false_ne_true),
        List.dropWhile_cons_of_neg (by rw [hf]; exact Bool.false_ne_true)]
      rw [if_neg (by exact List.cons_ne_nil a l)]
      rfl

theorem pyStrip_append_nl (l : List Char) : pyStrip (l ++ [nlChar]) = pyStrip l := by
  have hnl : isPySpace nlChar = true := by decide
  rw [pyStrip, pyStrip, dropWhile_append_single]
  by_cases h : List.dropWhile isPySpace l = []
  · rw [if_pos h, h]
    show (List.dropWhile isPySpace
        (List.dropWhile isPySpace [nlChar]).reverse).reverse = _
    rw [List.dropWhile_cons_of_pos hnl]
    rfl
  · rw [if_neg h, List.reverse_append]
    show (List.dropWhile isPySpace
        ([nlChar].reverse ++ (List.dropWhile isPySpace l).reverse)).reverse = _
    have : [nlChar].reverse ++ (List.dropWhile isPySpace l).reverse =
        nlChar :: (List.dropWhile isPySpace l).reverse := rfl
    rw [this, List.dropWhile_cons_of_pos hnl]

theorem process_file_fst (loads : String → Option Entry) (pos : Nat) (content : List Char)
    (project ts : String) :
    (process_file loads pos content project ts).1 = max pos content.length := by
  rw [process_file]
  by_cases h : content.length ≤ pos
  · rw [if_pos h, max_eq_left h]
  · rw [if_neg h]
    exact (max_eq_right (le_of_not_le h)).symm

theorem reads_in_map_classify (evs : List Event) :
    reads_in (evs.map ScanAction.classify) = [] := by
  induction evs with
  | nil => rfl
  | cons e evs ih =>
    rw [List.map_cons, reads_in, List.filterMap_cons]
    exact ih

theorem commits_in_map_classify (evs : List Event) :
    commits_in (evs.map ScanAction.classify) = [] := by
  induction evs with
  | nil => rfl
  | cons e evs ih =>
    rw [List.map_cons, commits_in, List.filterMap_cons]
    exact ih

theorem checkpoint_after_map_classify (evs : List Event) (p : Nat) :
    checkpoint_after p (evs.map ScanAction.classify) = p := by
  induction evs generalizing p with
  | nil => rfl
  | cons e evs ih =>
    rw [List.map_cons, checkpoint_after, List.foldl_cons]
    exact ih p

theorem reads_in_trace (loads : String → Option Entry) (pos : Nat) (content : List Char)
    (project ts : String) :
    reads_in (process_file_trace loads pos content project ts) =
      if content.length ≤ pos then [] else [(pos, content.length)] := by
  rw [process_file_trace]
  by_cases h : content.length ≤ pos
  · rw [if_pos h, if_pos h]
    rfl
  · rw [if_neg h, if_neg h, reads_in, List.filterMap_cons, List.filterMap_cons]
    have := reads_in_map_classify
      ((splitLinesPy (content.drop pos)).foldl (process_line loads project ts) [])
    rw [reads_in] at this
    rw [this]

theorem send_event_ok (body : Except PyExc Unit) : send_event body = Except.ok () := by
  cases body with
  | ok u => cases u; rfl
  | error e => cases e <;> rfl

theorem process_line_d_ok (loads : String → Option Entry)
    (dispatchBody : Event → Except PyExc Unit) (project ts : String)
    (acc : List Event) (line : List Char) :
    process_line_d loads dispatchBody project ts acc line =
      Except.ok (process_line loads project ts acc line) := by
  rw [process_line_d, process_line]
  by_cases h : pyStrip line = []
  · rw [if_pos h, if_pos h]
  · rw [if_neg h, if_neg h]
    cases hload : loads (String.mk (pyStrip line)) with
    | none => rfl
    | some entry =>
      show (process_entry_d dispatchBody entry project ts).bind
          (fun oe => Except.ok
            (match oe with
             | some ev => acc ++ [ev]
             | none => acc)) =
        Except.ok
          (match process_entry entry project ts with
           | some ev => acc ++ [ev]
           | none => acc)
      rw [process_entry_d.eq_def]
      cases hpe : process_entry entry project ts with
      | none => rfl
      | some ev =>
        show (((send_event (dispatchBody ev)).bind fun _ => Except.ok (some ev)).bind
            fun oe => Except.ok
              (match oe with
               | some ev => acc ++ [ev]
               | none => acc)) = Except.ok (acc ++ [ev])
        rw [send_event_ok]
        rfl

theorem foldlM_except_ok {α β : Type} (fD : β → α → Except PyExc β) (f : β → α → β)
    (h : ∀ b a, fD b a = Except.ok (f b a)) :
    ∀ (l : List α) (b : β), List.foldlM fD b l = Except.ok (List.foldl f b l) := by
  intro l
  induction l with
  | nil => intro b; rfl
  | cons a l ih =>
    intro b
    rw [List.foldlM_cons, List.foldl_cons, h b a]
    show (Except.ok (f b a)).bind _ = _
    rw [Except.bind]
    exact ih (f b a)

theorem process_file_d_ok (loads : String → Option Entry)
    (dispatchBody : Event → Except PyExc Unit) (pos : Nat) (content : List Char)
    (project ts : String) :
    process_file_d loads dispatchBody pos content project ts =
      Except.ok (process_file loads pos content project ts) := by
  rw [process_file_d, process_file]
  by_cases h : content.length ≤ pos
  · rw [if_pos h, if_pos h]
  · rw [if_neg h, if_neg h]
    rw [foldlM_except_ok (process_line_d loads dispatchBody project ts)
      (process_line loads project ts) (process_line_d_ok loads dispatchBody project ts)]
    rfl

theorem checkpoints_chain (loads : String → Option Entry) (project ts : String) :
    ∀ (contents : List (List Char)) (pos : Nat),
      List.Chain' (· ≤ ·) (pos :: checkpoints loads project ts pos contents) := by
  intro contents
  induction contents with
  | nil =>
    intro pos
    show List.Chain' (· ≤ ·) [pos]
    exact List.chain'_singleton pos
  | cons c cs ih =>
    intro pos
    rw [checkpoints, List.chain'_cons]
    refine ⟨?_, ih _⟩
    rw [process_file_fst]
    exact le_max_left _ _

theorem pass_reads_chain (loads : String → Option Entry) (project ts : String) :
    ∀ (contents : List (List Char)) (pos : Nat),
      IsRangeChain pos (pass_reads loads project ts pos contents)
        (List.foldl max pos (contents.map List.length)) := by
  intro contents
  induction contents with
  | nil =>
    intro pos
    show pos = pos
    rfl
  | cons c cs ih =>
    intro pos
    rw [pass_reads, List.map_cons, List.foldl_cons, reads_in_trace, process_file_fst]
    by_cases h : c.length ≤ pos
    · rw [if_pos h, max_eq_left h, List.nil_append]
      exact ih pos
    · rw [if_neg h, max_eq_right (le_of_not_le h)]
      show (pos, c.length).1 = pos ∧ pos < (pos, c.length).2 ∧
        IsRangeChain c.length (pass_reads loads project ts c.length cs)
          (List.foldl max c.length (cs.map List.length))
      exact ⟨rfl, lt_of_not_le h, ih c.length⟩

theorem chain_foldl_max :
    ∀ (l : List Nat) (a : Nat), List.Chain' (· ≤ ·) (a :: l) →
      List.foldl max a l = l.getLastD a := by
  intro l
  induction l with
  | nil => intro a _; rfl
  | cons b l ih =>
    intro a h
    rw [List.chain'_cons] at h
    rw [List.foldl_cons, List.getLastD_cons, max_eq_right h.1]
    exact ih b h.2

theorem foldl_max_zero_getLastD (l : List Nat) (h : List.Chain' (· ≤ ·) l) :
    List.foldl max 0 l = l.getLastD 0 := by
  cases l with
  | nil => rfl
  | cons s rest =>
    rw [List.foldl_cons, max_eq_right (Nat.zero_le s), List.getLastD_cons]
    exact chain_foldl_max rest s h

theorem checkpoint_after_read_commit (pos a b off : Nat) (evs : List Event) (k : Nat) :
    checkpoint_after pos
        ((ScanAction.read a b :: ScanAction.commit off :: evs.map ScanAction.classify).take
          (k + 2)) = off := by
  rw [List.take_succ_cons, List.take_succ_cons]
  show checkpoint_after off ((evs.map ScanAction.classify).take k) = off
  rw [← List.map_take]
  exact checkpoint_after_map_classify _ _

theorem process_entry_user (e : Entry) (project ts : String)
    (hrole : e.role = "user") (hcontent : e.content ≠ "") :
    process_entry e project ts = some (mkUserEvent e.content project ts) := by
  rw [process_entry, if_neg (fun hne => hne hrole), if_neg hcontent]
  rfl

theorem process_line_append_nl (loads : String → Option Entry) (project ts : String)
    (acc : List Event) (l : List Char) :
    process_line loads project ts acc (l ++ [nlChar]) = process_line loads project ts acc l := by
  rw [process_line, process_line, pyStrip_append_nl]

theorem process_line_user (loads : String → Option Entry) (project ts : String)
    (acc : List Event) (l : List Char) (e : Entry)
    (hs : pyStrip l ≠ []) (hl : loads (String.mk (pyStrip l)) = some e)
    (hrole : e.role = "user") (hcontent : e.content ≠ "") :
    process_line loads project ts acc l = acc ++ [mkUserEvent e.content project ts] := by
  rw [process_line, if_neg hs, hl]
  show (match process_entry e project ts with
        | some ev => acc ++ [ev]
        | none => acc) = acc ++ [mkUserEvent e.content project ts]
  rw [process_entry_user e project ts hrole hcontent]

theorem process_line_malformed (loads : String → Option Entry) (project ts : String)
    (acc : List Event) (l : List Char)
    (hl : loads (String.mk (pyStrip l)) = none) :
    process_line loads project ts acc l = acc := by
  rw [process_line, hl]
  by_cases h : pyStrip l = []
  · rw [if_pos h]
  · rw [if_neg h]

theorem commits_in_trace (loads : String → Option Entry) (pos : Nat) (content : List Char)
    (project ts : String) :
    commits_in (process_file_trace loads pos content project ts) =
      if content.length ≤ pos then [] else [content.length] := by
  rw [process_file_trace]
  by_cases h : content.length ≤ pos
  · rw [if_pos h, if_pos h]
    rfl
  · rw [if_neg h, if_neg h, commits_in, List.filterMap_cons, List.filterMap_cons]
    have := commits_in_map_classify
      ((splitLinesPy (content.drop pos)).foldl (process_line loads project ts) [])
    rw [commits_in] at this
    rw [this]

/-! ### Claim theorems -/

/-- Claim C1 counterexample: with a recorded checkpoint of 10 and a
5-byte file (`"hello"`), `_process_file` does NOT reset the checkpoint
to 0 and does NOT read the byte range `(0, 5)` — it leaves the
checkpoint at 10, produces no events and performs no read at all,
because the guard `file_size <= current_pos` returns early. -/
theorem truncation_no_reset_counterexample :
    (process_file (fun _ => none) 10 (("hello").toList) ("p") ("t")).1 = 10 ∧
    ¬((process_file (fun _ => none) 10 (("hello").toList) ("p") ("t")).1 = 0) ∧
    (process_file (fun _ => none) 10 (("hello").toList) ("p") ("t")).2 = [] ∧
    reads_in (process_file_trace (fun _ => none) 10 (("hello").toList) ("p") ("t")) = [] := by
  decide

/-- Claim C1 (amended): when the observed file size is smaller than the
recorded checkpoint (truncation/rotation), `_process_file` skips the
file entirely — no bytes are read, no events are produced, and the
checkpoint is left unchanged. It never attempts a negative-length read,
but it also never resets the checkpoint to 0. -/
theorem truncation_skips_file (loads : String → Option Entry) (pos : Nat)
    (content : List Char) (project ts : String) (h : content.length < pos) :
    process_file loads pos content project ts = (pos, []) ∧
    process_file_trace loads pos content project ts = [] := by
  have hle : content.length ≤ pos := le_of_lt h
  constructor
  · rw [process_file, if_pos hle]
  · rw [process_file_trace, if_pos hle]

/-- Witness for the amended C1 theorem at a concrete truncated file. -/
theorem truncation_skips_file_witness :
    (("hello").toList.length < 10) ∧
    (process_file (fun _ => none) 10 (("hello").toList) ("p") ("t") = (10, []) ∧
     process_file_trace (fun _ => none) 10 (("hello").toList) ("p") ("t") = []) :=
  ⟨by decide, truncation_skips_file (fun _ => none) 10 (("hello").toList) ("p") ("t") (by decide)⟩

/-- Claim C2: any prompt containing a high-risk keyword (as a substring
of the lower-cased prompt) gets salience ≥ 0.85 (in fact 0.9), mode
`"emerge"` and `should_emerge = true` — regardless of medium-risk
keywords, which are not even scanned — and every matching high-risk
keyword is recorded in `detected_keywords`. -/
theorem high_risk_forces_emerge (prompt kw : String)
    (hk : kw ∈ HIGH_RISK_KEYWORDS)
    (hm : containsL (pyLowerL prompt.toList) kw.toList = true) :
    (analyze_prompt prompt).salience ≥ 85/100 ∧
    (analyze_prompt prompt).mode = "emerge" ∧
    (analyze_prompt prompt).should_emerge = true ∧
    ∀ kw2 ∈ HIGH_RISK_KEYWORDS,
      containsL (pyLowerL prompt.toList) kw2.toList = true →
        kw2 ∈ (analyze_prompt prompt).detected_keywords := by
  have hany : HIGH_RISK_KEYWORDS.any
      (fun kw => containsL (pyLowerL prompt.toList) kw.toList) = true :=
    List.any_eq_true.mpr ⟨kw, hk, hm⟩
  rw [analyze_prompt_high prompt hany]
  refine ⟨by norm_num, rfl, rfl, ?_⟩
  intro kw2 hk2 hm2
  exact List.mem_filter.mpr ⟨hk2, hm2⟩

/-- Witness for C2 at the concrete prompt `"Drop the TABLE"`. -/
theorem high_risk_forces_emerge_witness :
    (("drop" : String) ∈ HIGH_RISK_KEYWORDS) ∧
    containsL (pyLowerL (("Drop the TABLE") : String).toList) (("drop") : String).toList = true ∧
    ((analyze_prompt ("Drop the TABLE")).salience ≥ 85/100 ∧
     (analyze_prompt ("Drop the TABLE")).mode = "emerge" ∧
     (analyze_prompt ("Drop the TABLE")).should_emerge = true ∧
     ∀ kw2 ∈ HIGH_RISK_KEYWORDS,
       containsL (pyLowerL (("Drop the TABLE") : String).toList) kw2.toList = true →
         kw2 ∈ (analyze_prompt ("Drop the TABLE")).detected_keywords) :=
  ⟨by decide, by decide,
    high_risk_forces_emerge ("Drop the TABLE") ("drop") (by decide) (by decide)⟩

/-- Claim C5: `_send_event` never lets an exception escape its boundary
— every outcome of the transport call (success, missing `httpx`,
timeout, connection error, failed response, anything else) results in a
normal return — and consequently a full scan pass with dispatch
enabled returns exactly the same checkpoint and events as one without,
for every possible dispatch behaviour: dispatch failures never
interrupt the scan and failed events are simply dropped. -/
theorem dispatch_never_raises :
    (∀ body : Except PyExc Unit, send_event body = Except.ok ()) ∧
    ∀ (loads : String → Option Entry) (dispatchBody : Event → Except PyExc Unit)
      (pos : Nat) (content : List Char) (project ts : String),
      process_file_d loads dispatchBody pos content project ts =
        Except.ok (process_file loads pos content project ts) :=
  ⟨send_event_ok, fun loads d pos content project ts =>
    process_file_d_ok loads d pos content project ts⟩

/-- Claim C7: `detect_intention` lower-cases its input and returns the
tag of the first `INTENT_PATTERNS` entry (in table order) having a
keyword (in list order) that occurs as a substring, with `"unknown"`
as the fallback — stated as an equality with the spec-worded
`List.find?` formulation. Totality and determinism hold because it is
a total function of the input text alone. -/
theorem detect_intention_first_match (m : String) :
    detect_intention m = detect_intention_spec m := by
  rw [detect_intention, detect_intention_spec]
  exact detect_go_eq_find _ _

/-- Claim C9: for every input, `extract_files_touched` returns at most
10 entries and contains no duplicate path strings. -/
theorem extract_files_capped_nodup (m : String) :
    (extract_files_touched m).length ≤ 10 ∧ (extract_files_touched m).Nodup := by
  simp only [extract_files_touched]
  constructor
  · exact List.length_take_le _ _
  · exact List.Nodup.sublist (List.take_sublist _ _) (List.nodup_dedup _)

/-- Claim C3: in a scan pass that reads bytes (`pos < size`), the trace
of `_process_file` is exactly one read of `(pos, size)`, then exactly
one checkpoint commit of `size` — before any record is classified —
then the classification steps; and replaying any trace prefix that
includes the commit (a crash at any point during classification) leaves
the checkpoint at `size`, so a restarted pass over the same bytes reads
nothing: the byte range is never redelivered. -/
theorem checkpoint_commit_once_before_classify (loads : String → Option Entry) (pos : Nat)
    (content : List Char) (project ts : String) (h : pos < content.length) :
    process_file_trace loads pos content project ts =
      ScanAction.read pos content.length :: ScanAction.commit content.length ::
        ((process_file loads pos content project ts).2.map ScanAction.classify) ∧
    commits_in (process_file_trace loads pos content project ts) = [content.length] ∧
    (∀ k : Nat,
      checkpoint_after pos
        ((process_file_trace loads pos content project ts).take (k + 2)) = content.length) ∧
    process_file loads content.length content project ts = (content.length, []) := by
  have hn : ¬(content.length ≤ pos) := not_le_of_lt h
  have htr : process_file_trace loads pos content project ts =
      ScanAction.read pos content.length :: ScanAction.commit content.length ::
        ((process_file loads pos content project ts).2.map ScanAction.classify) := by
    rw [process_file_trace, if_neg hn, process_file, if_neg hn]
  refine ⟨htr, ?_, ?_, ?_⟩
  · rw [commits_in_trace, if_neg hn]
  · intro k
    rw [htr]
    exact checkpoint_after_read_commit pos pos content.length content.length _ k
  · rw [process_file, if_pos (le_refl _)]

/-- Witness for C3 at a concrete 2-byte file read from offset 0. -/
theorem checkpoint_commit_once_before_classify_witness :
    (0 < (("ab").toList).length) ∧
    (process_file_trace (fun _ => none) 0 (("ab").toList) ("p") ("t") =
       ScanAction.read 0 (("ab").toList).length ::
         ScanAction.commit (("ab").toList).length ::
           ((process_file (fun _ => none) 0 (("ab").toList) ("p") ("t")).2.map
             ScanAction.classify) ∧
     commits_in (process_file_trace (fun _ => none) 0 (("ab").toList) ("p") ("t")) =
       [(("ab").toList).length] ∧
     (∀ k : Nat,
       checkpoint_after 0
         ((process_file_trace (fun _ => none) 0 (("ab").toList) ("p") ("t")).take (k + 2)) =
           (("ab").toList).length) ∧
     process_file (fun _ => none) (("ab").toList).length (("ab").toList) ("p") ("t") =
       ((("ab").toList).length, [])) :=
  ⟨by decide,
    checkpoint_commit_once_before_classify (fun _ => none) 0 (("ab").toList) ("p") ("t")
      (by decide)⟩

/-- Claim C4: across a sequence of scan passes over one file whose size
never shrinks, the checkpoint sequence is monotonically non-decreasing
and the byte ranges read tile `[0, final_size)` exactly: consecutive,
non-overlapping, gap-free, in order, starting at 0 and ending at the
final size. -/
theorem growing_sizes_reads_partition (loads : String → Option Entry) (project ts : String)
    (contents : List (List Char))
    (h : List.Chain' (· ≤ ·) (contents.map List.length)) :
    IsRangeChain 0 (pass_reads loads project ts 0 contents)
      ((contents.map List.length).getLastD 0) ∧
    List.Chain' (· ≤ ·) (0 :: checkpoints loads project ts 0 contents) := by
  constructor
  · have hc := pass_reads_chain loads project ts contents 0
    rw [foldl_max_zero_getLastD _ h] at hc
    exact hc
  · exact checkpoints_chain loads project ts contents 0

/-- Witness for C4 on a file that grows from 2 to 4 bytes. -/
theorem growing_sizes_reads_partition_witness :
    List.Chain' (· ≤ ·) ([("ab").toList, ("abcd").toList].map List.length) ∧
    (IsRangeChain 0 (pass_reads (fun _ => none) ("p") ("t") 0 [("ab").toList, ("abcd").toList])
       (([("ab").toList, ("abcd").toList].map List.length).getLastD 0) ∧
     List.Chain' (· ≤ ·)
       (0 :: checkpoints (fun _ => none) ("p") ("t") 0 [("ab").toList, ("abcd").toList])) :=
  ⟨by exact List.chain'_cons.mpr ⟨by norm_num, List.chain'_singleton _⟩,
    growing_sizes_reads_partition (fun _ => none) ("p") ("t")
      [("ab").toList, ("abcd").toList]
      (by exact List.chain'_cons.mpr ⟨by norm_num, List.chain'_singleton _⟩)⟩

/-- Claim C10: for every prompt the response satisfies: salience is
exactly one of 0.1, 0.6, 0.9; `should_emerge` holds iff the mode is
`"emerge"` iff the salience is 0.9; and the emergence reason is absent
iff no keyword was detected. -/
theorem analyze_prompt_invariants (prompt : String) :
    ((analyze_prompt prompt).salience = 1/10 ∨ (analyze_prompt prompt).salience = 6/10 ∨
      (analyze_prompt prompt).salience = 9/10) ∧
    ((analyze_prompt prompt).should_emerge = true ↔ (analyze_prompt prompt).mode = "emerge") ∧
    ((analyze_prompt prompt).mode = "emerge" ↔ (analyze_prompt prompt).salience = 9/10) ∧
    ((analyze_prompt prompt).emergence_reason = none ↔
      (analyze_prompt prompt).detected_keywords = []) := by
  by_cases hh : HIGH_RISK_KEYWORDS.any
      (fun kw => containsL (pyLowerL prompt.toList) kw.toList) = true
  · have hne : highMatches prompt ≠ [] := by
      obtain ⟨x, hx, hpx⟩ := List.any_eq_true.mp hh
      exact List.ne_nil_of_mem (List.mem_filter.mpr ⟨hx, hpx⟩)
    rw [analyze_prompt_high prompt hh]
    exact ⟨Or.inr (Or.inr rfl), iff_of_true rfl rfl, iff_of_true rfl rfl,
      iff_of_false (Option.some_ne_none _) hne⟩
  · have hh' : HIGH_RISK_KEYWORDS.any
        (fun kw => containsL (pyLowerL prompt.toList) kw.toList) = false :=
      (Bool.not_eq_true _) ▸ hh
    by_cases hm : MEDIUM_RISK_KEYWORDS.any
        (fun kw => containsL (pyLowerL prompt.toList) kw.toList) = true
    · have hne : medMatches prompt ≠ [] := by
        obtain ⟨x, hx, hpx⟩ := List.any_eq_true.mp hm
        exact List.ne_nil_of_mem (List.mem_filter.mpr ⟨hx, hpx⟩)
      rw [analyze_prompt_med prompt hh' hm]
      have hms : ("subtle" : String) ≠ "emerge" := by decide
      have h69 : (6/10 : ℚ) ≠ 9/10 := by norm_num
      exact ⟨Or.inr (Or.inl rfl), iff_of_false Bool.false_ne_true hms,
        ⟨fun hx => absurd hx hms, fun hx => absurd hx h69⟩,
        iff_of_false (Option.some_ne_none _) hne⟩
    · have hm' : MEDIUM_RISK_KEYWORDS.any
          (fun kw => containsL (pyLowerL prompt.toList) kw.toList) = false :=
        (Bool.not_eq_true _) ▸ hm
      rw [analyze_prompt_low prompt hh' hm']
      have hms : ("silent" : String) ≠ "emerge" := by decide
      have h19 : (1/10 : ℚ) ≠ 9/10 := by norm_num
      exact ⟨Or.inl rfl, iff_of_false Bool.false_ne_true hms,
        ⟨fun hx => absurd hx hms, fun hx => absurd hx h19⟩, iff_of_true rfl rfl⟩

/-- Claim C6: the outbound event has exactly the five fields of the
`Event` structure, and depends on the record body only through
`detect_intention` and `extract_files_touched`: two user records whose
bodies yield the same derived values produce identical events (with the
same timestamp), and the event is exactly the tuple of derived values
— no other body text crosses the boundary. -/
theorem event_depends_only_on_derived (e₁ e₂ : Entry) (project ts : String)
    (h₁ : e₁.role = "user") (h₂ : e₂.role = "user")
    (hc₁ : e₁.content ≠ "") (hc₂ : e₂.content ≠ "")
    (hdet : detect_intention e₁.content = detect_intention e₂.content)
    (hext : extract_files_touched e₁.content = extract_files_touched e₂.content) :
    process_entry e₁ project ts = process_entry e₂ project ts ∧
    process_entry e₁ project ts = some (mkUserEvent e₁.content project ts) := by
  rw [process_entry_user e₁ project ts h₁ hc₁, process_entry_user e₂ project ts h₂ hc₂]
  refine ⟨?_, rfl⟩
  rw [mkUserEvent, mkUserEvent, hdet, hext]

/-- Witness for C6: two different bodies with equal derived values. -/
theorem event_depends_only_on_derived_witness :
    ((Entry.mk ("user") ("make it")).role = "user") ∧
    ((Entry.mk ("user") ("build me")).role = "user") ∧
    ((Entry.mk ("user") ("make it")).content ≠ "") ∧
    ((Entry.mk ("user") ("build me")).content ≠ "") ∧
    detect_intention (Entry.mk ("user") ("make it")).content =
      detect_intention (Entry.mk ("user") ("build me")).content ∧
    extract_files_touched (Entry.mk ("user") ("make it")).content =
      extract_files_touched (Entry.mk ("user") ("build me")).content ∧
    (process_entry (Entry.mk ("user") ("make it")) ("proj") ("ts0") =
       process_entry (Entry.mk ("user") ("build me")) ("proj") ("ts0") ∧
     process_entry (Entry.mk ("user") ("make it")) ("proj") ("ts0") =
       some (mkUserEvent (Entry.mk ("user") ("make it")).content ("proj") ("ts0"))) :=
  ⟨rfl, rfl, by decide, by decide, by decide, by decide,
    event_depends_only_on_derived (Entry.mk ("user") ("make it"))
      (Entry.mk ("user") ("build me")) ("proj") ("ts0") rfl rfl (by decide) (by decide)
      (by decide) (by decide)⟩

/-- Claim C8: a file whose unseen bytes hold five raw lines — three
decodable user records, then a line that fails to decode, then one more
decodable user record — yields exactly 4 classification results (the
malformed line is skipped without aborting the rest) and the checkpoint
still advances past all 5 raw lines, to the full file size. -/
theorem malformed_line_skipped (loads : String → Option Entry)
    (l1 l2 l3 l4 l5 : List Char) (e1 e2 e3 e5 : Entry) (project ts : String)
    (hn1 : nlChar ∉ l1) (hn2 : nlChar ∉ l2) (hn3 : nlChar ∉ l3)
    (hn4 : nlChar ∉ l4) (hn5 : nlChar ∉ l5)
    (hs1 : pyStrip l1 ≠ []) (hs2 : pyStrip l2 ≠ []) (hs3 : pyStrip l3 ≠ [])
    (hs5 : pyStrip l5 ≠ [])
    (hl1 : loads (String.mk (pyStrip l1)) = some e1)
    (hl2 : loads (String.mk (pyStrip l2)) = some e2)
    (hl3 : loads (String.mk (pyStrip l3)) = some e3)
    (hl4 : loads (String.mk (pyStrip l4)) = none)
    (hl5 : loads (String.mk (pyStrip l5)) = some e5)
    (hr1 : e1.role = "user") (hr2 : e2.role = "user") (hr3 : e3.role = "user")
    (hr5 : e5.role = "user")
    (hc1 : e1.content ≠ "") (hc2 : e2.content ≠ "") (hc3 : e3.content ≠ "")
    (hc5 : e5.content ≠ "") :
    process_file loads 0
        (l1 ++ nlChar :: (l2 ++ nlChar :: (l3 ++ nlChar :: (l4 ++ nlChar :: (l5 ++ [nlChar])))))
        project ts =
      ((l1 ++ nlChar ::
          (l2 ++ nlChar :: (l3 ++ nlChar :: (l4 ++ nlChar :: (l5 ++ [nlChar]))))).length,
        [mkUserEvent e1.content project ts, mkUserEvent e2.content project ts,
         mkUserEvent e3.content project ts, mkUserEvent e5.content project ts]) ∧
    [mkUserEvent e1.content project ts, mkUserEvent e2.content project ts,
     mkUserEvent e3.content project ts, mkUserEvent e5.content project ts].length = 4 := by
  have hpos : 0 <
      (l1 ++ nlChar ::
        (l2 ++ nlChar :: (l3 ++ nlChar :: (l4 ++ nlChar :: (l5 ++ [nlChar]))))).length := by
    simp only [List.length_append, List.length_cons]
    omega
  have hn : ¬((l1 ++ nlChar ::
      (l2 ++ nlChar :: (l3 ++ nlChar :: (l4 ++ nlChar :: (l5 ++ [nlChar]))))).length ≤ 0) :=
    not_le.mpr hpos
  refine ⟨?_, rfl⟩
  rw [process_file, if_neg hn, List.drop_zero]
  have h5 : splitLinesPy (l5 ++ [nlChar]) = (l5 ++ [nlChar]) :: splitLinesPy [] :=
    splitLinesPy_cons_append l5 [] hn5
  have hsplit : splitLinesPy
      (l1 ++ nlChar :: (l2 ++ nlChar :: (l3 ++ nlChar :: (l4 ++ nlChar :: (l5 ++ [nlChar]))))) =
      [l1 ++ [nlChar], l2 ++ [nlChar], l3 ++ [nlChar], l4 ++ [nlChar], l5 ++ [nlChar]] := by
    rw [splitLinesPy_cons_append _ _ hn1, splitLinesPy_cons_append _ _ hn2,
      splitLinesPy_cons_append _ _ hn3, splitLinesPy_cons_append _ _ hn4, h5]
    rfl
  rw [hsplit]
  show ((l1 ++ nlChar ::
      (l2 ++ nlChar :: (l3 ++ nlChar :: (l4 ++ nlChar :: (l5 ++ [nlChar]))))).length,
      List.foldl (process_line loads project ts) []
        [l1 ++ [nlChar], l2 ++ [nlChar], l3 ++ [nlChar], l4 ++ [nlChar], l5 ++ [nlChar]]) =
    ((l1 ++ nlChar ::
      (l2 ++ nlChar :: (l3 ++ nlChar :: (l4 ++ nlChar :: (l5 ++ [nlChar]))))).length,
      [mkUserEvent e1.content project ts, mkUserEvent e2.content project ts,
       mkUserEvent e3.content project ts, mkUserEvent e5.content project ts])
  have s1 : process_line loads project ts [] (l1 ++ [nlChar]) =
      [mkUserEvent e1.content project ts] := by
    rw [process_line_append_nl, process_line_user loads project ts [] l1 e1 hs1 hl1 hr1 hc1,
      List.nil_append]
  have s2 : process_line loads project ts [mkUserEvent e1.content project ts]
      (l2 ++ [nlChar]) =
      [mkUserEvent e1.content project ts, mkUserEvent e2.content project ts] := by
    rw [process_line_append_nl, process_line_user loads project ts _ l2 e2 hs2 hl2 hr2 hc2]
    rfl
  have s3 : process_line loads project ts
      [mkUserEvent e1.content project ts, mkUserEvent e2.content project ts]
      (l3 ++ [nlChar]) =
      [mkUserEvent e1.content project ts, mkUserEvent e2.content project ts,
       mkUserEvent e3.content project ts] := by
    rw [process_line_append_nl, process_line_user loads project ts _ l3 e3 hs3 hl3 hr3 hc3]
    rfl
  have s4 : process_line loads project ts
      [mkUserEvent e1.content project ts, mkUserEvent e2.content project ts,
       mkUserEvent e3.content project ts]
      (l4 ++ [nlChar]) =
      [mkUserEvent e1.content project ts, mkUserEvent e2.content project ts,
       mkUserEvent e3.content project ts] := by
    rw [process_line_append_nl, process_line_malformed loads project ts _ l4 hl4]
  have s5 : process_line loads project ts
      [mkUserEvent e1.content project ts, mkUserEvent e2.content project ts,
       mkUserEvent e3.content project ts]
      (l5 ++ [nlChar]) =
      [mkUserEvent e1.content project ts, mkUserEvent e2.content project ts,
       mkUserEvent e3.content project ts, mkUserEvent e5.content project ts] := by
    rw [process_line_append_nl, process_line_user loads project ts _ l5 e5 hs5 hl5 hr5 hc5]
    rfl
  rw [List.foldl_cons, s1, List.foldl_cons, s2, List.foldl_cons, s3, List.foldl_cons, s4,
    List.foldl_cons, s5, List.foldl_nil]

/-- Witness for C8: three decodable user records, one undecodable line,
one more decodable user record, via the concrete decoder `demoLoads`. -/
theorem malformed_line_skipped_witness :
    process_file demoLoads 0
        (("A1").toList ++ nlChar :: (("A2").toList ++ nlChar :: (("A3").toList ++ nlChar ::
          (("oops").toList ++ nlChar :: (("A5").toList ++ [nlChar])))))
        ("proj") ("ts0") =
      ((("A1").toList ++ nlChar :: (("A2").toList ++ nlChar :: (("A3").toList ++ nlChar ::
          (("oops").toList ++ nlChar :: (("A5").toList ++ [nlChar]))))).length,
        [mkUserEvent (Entry.mk ("user") ("make it")).content ("proj") ("ts0"),
         mkUserEvent (Entry.mk ("user") ("fix the bug")).content ("proj") ("ts0"),
         mkUserEvent (Entry.mk ("user") ("test it")).content ("proj") ("ts0"),
         mkUserEvent (Entry.mk ("user") ("ship it now")).content ("proj") ("ts0")]) ∧
    [mkUserEvent (Entry.mk ("user") ("make it")).content ("proj") ("ts0"),
     mkUserEvent (Entry.mk ("user") ("fix the bug")).content ("proj") ("ts0"),
     mkUserEvent (Entry.mk ("user") ("test it")).content ("proj") ("ts0"),
     mkUserEvent (Entry.mk ("user") ("ship it now")).content ("proj") ("ts0")].length = 4 :=
  malformed_line_skipped demoLoads
    (("A1").toList) (("A2").toList) (("A3").toList) (("oops").toList) (("A5").toList)
    (Entry.mk ("user") ("make it")) (Entry.mk ("user") ("fix the bug"))
    (Entry.mk ("user") ("test it")) (Entry.mk ("user") ("ship it now"))
    ("proj") ("ts0")
    (by decide) (by decide) (by decide) (by decide) (by decide)
    (by decide) (by decide) (by decide) (by decide)
    (by decide) (by decide) (by decide) (by decide) (by decide)
    rfl rfl rfl rfl
    (by decide) (by decide) (by decide) (by decide)
